import Mathlib

/-!
Verification of the challenge-response authentication server/client
(`server2.cpp` / `client2.cpp`) and its plaintext variant.

Bytes are modelled as `Nat` (values below 256); byte strings
(`std::string` holding raw bytes) as `List Nat`.  32-bit machine words
are `Nat` reduced modulo `2 ^ 32` wherever the C code would wrap.
-/

namespace Sock

/-- 32-bit modulus used by the SHA1 arithmetic. -/
def M32 : Nat := 2 ^ 32

/-- Left rotation of a 32-bit word by `k` bits (`0 < k < 32`),
as performed by the SHA1 compression function. -/
def rotl (x k : Nat) : Nat :=
  (x * 2 ^ k) % M32 + x / 2 ^ (32 - k)

/-- Big-endian serialization of one 32-bit word into four bytes
(`std::string` output of the digest). -/
def wordBytes (w : Nat) : List Nat :=
  [w / 2 ^ 24 % 256, w / 2 ^ 16 % 256, w / 2 ^ 8 % 256, w % 256]

/-- Parse a 64-byte block into sixteen big-endian 32-bit words. -/
def toWords : List Nat → List Nat
  | b0 :: b1 :: b2 :: b3 :: rest =>
      (b0 * 2 ^ 24 + b1 * 2 ^ 16 + b2 * 2 ^ 8 + b3) :: toWords rest
  | _ => []

/-- Big-endian serialization of the 64-bit message bit length appended
by SHA1 padding. -/
def lenBytes (n : Nat) : List Nat :=
  [n / 2 ^ 56 % 256, n / 2 ^ 48 % 256, n / 2 ^ 40 % 256, n / 2 ^ 32 % 256,
   n / 2 ^ 24 % 256, n / 2 ^ 16 % 256, n / 2 ^ 8 % 256, n % 256]

/-- SHA1 padding: append `0x80`, then zeros up to 56 mod 64, then the
64-bit big-endian bit length. -/
def sha1_pad (msg : List Nat) : List Nat :=
  let len := msg.length
  let zeros := (64 + 56 - (len + 1) % 64) % 64
  msg ++ [128] ++ List.replicate zeros 0 ++ lenBytes (len * 8)

/-- Extend the 16-word block to the 80-word SHA1 message schedule,
appending `steps` further words. -/
def schedule (w : List Nat) : Nat → List Nat
  | 0 => w
  | steps + 1 =>
      let n := w.length
      let next := rotl ((w.getD (n - 3) 0) ^^^ (w.getD (n - 8) 0) ^^^
                        (w.getD (n - 14) 0) ^^^ (w.getD (n - 16) 0)) 1
      schedule (w ++ [next]) steps

/-- The SHA1 round function for round `t`. -/
def roundF (t b c d : Nat) : Nat :=
  if t < 20 then (b &&& c) ||| ((b ^^^ (M32 - 1)) &&& d)
  else if t < 40 then b ^^^ c ^^^ d
  else if t < 60 then (b &&& c) ||| (b &&& d) ||| (c &&& d)
  else b ^^^ c ^^^ d

/-- The SHA1 round constant for round `t`. -/
def kconst (t : Nat) : Nat :=
  if t < 20 then 0x5A827999
  else if t < 40 then 0x6ED9EBA1
  else if t < 60 then 0x8F1BBCDC
  else 0xCA62C1D6

/-- One pass of the 80 SHA1 rounds over the message schedule,
threading the five working registers. -/
def rounds : Nat → List Nat → Nat × Nat × Nat × Nat × Nat → Nat × Nat × Nat × Nat × Nat
  | _, [], st => st
  | t, wt :: rest, (a, b, c, d, e) =>
      let temp := (rotl a 5 + roundF t b c d + e + kconst t + wt) % M32
      rounds (t + 1) rest (temp, a, rotl b 30, c, d)

/-- SHA1 compression of one 64-byte block into the running hash state
(a list of five 32-bit words). -/
def compress (hs block : List Nat) : List Nat :=
  let w := schedule (toWords block) 64
  let st := rounds 0 w (hs.getD 0 0, hs.getD 1 0, hs.getD 2 0, hs.getD 3 0, hs.getD 4 0)
  [(hs.getD 0 0 + st.1) % M32,
   (hs.getD 1 0 + st.2.1) % M32,
   (hs.getD 2 0 + st.2.2.1) % M32,
   (hs.getD 3 0 + st.2.2.2.1) % M32,
   (hs.getD 4 0 + st.2.2.2.2) % M32]

/-- Split a padded message into `n` consecutive 64-byte blocks. -/
def toBlocks : Nat → List Nat → List (List Nat)
  | 0, _ => []
  | n + 1, m => m.take 64 :: toBlocks n (m.drop 64)

/-- The SHA1 initial hash state. -/
def initH : List Nat := [0x67452301, 0xEFCDAB89, 0x98BADCFE, 0x10325476, 0xC3D2E1F0]

/-- SHA1 of a byte string, as the `EVP_sha1` primitive underlying the
OpenSSL `HMAC` call in `compute_hmac`.  Returns the 20-byte digest. -/
def sha1 (msg : List Nat) : List Nat :=
  let p := sha1_pad msg
  ((toBlocks (p.length / 64) p).foldl compress initH).flatMap wordBytes

/-- HMAC with SHA1: the keyed-hash construction the OpenSSL `HMAC`
function computes for `compute_hmac` (block size 64). -/
def hmac_sha1 (key msg : List Nat) : List Nat :=
  let k0 := if 64 < key.length then sha1 key else key
  let kpad := k0 ++ List.replicate (64 - k0.length) 0
  let ipad := kpad.map (fun b => b ^^^ 0x36)
  let opad := kpad.map (fun b => b ^^^ 0x5c)
  sha1 (opad ++ sha1 (ipad ++ msg))

/-- Embedding of `compute_hmac(data, key)` (identical in `server2.cpp`
lines 39-72 and `client2.cpp` lines 17-37): the HMAC-SHA1 digest of
`data` keyed by `key`, copied into a fresh 20-byte string. -/
def compute_hmac (data key : List Nat) : List Nat :=
  hmac_sha1 key data

/-- Length of the flattened word serialization: four bytes per word. -/
theorem flatMap_wordBytes_length (l : List Nat) :
    (l.flatMap wordBytes).length = 4 * l.length := by
  induction l with
  | nil => rfl
  | cons x xs ih =>
      simp [List.flatMap_cons, ih, wordBytes]
      ring

/-- The compression function always yields a five-word state. -/
theorem compress_length (hs block : List Nat) : (compress hs block).length = 5 := rfl

/-- Folding the compression function over any block list keeps the
state at five words. -/
theorem foldl_compress_length (bs : List (List Nat)) (hs : List Nat) (h : hs.length = 5) :
    (bs.foldl compress hs).length = 5 := by
  induction bs generalizing hs with
  | nil => simpa using h
  | cons b bs ih => exact ih (compress hs b) (compress_length hs b)

/-- A SHA1 digest is exactly 20 bytes. -/
theorem sha1_length (msg : List Nat) : (sha1 msg).length = 20 := by
  have h := foldl_compress_length (toBlocks ((sha1_pad msg).length / 64) (sha1_pad msg))
    initH rfl
  simp only [sha1, flatMap_wordBytes_length, h]

/-- A `compute_hmac` result is exactly 20 bytes. -/
theorem compute_hmac_length (data key : List Nat) : (compute_hmac data key).length = 20 :=
  sha1_length _

set_option maxRecDepth 100000 in
/-- Sanity check of the SHA1 embedding on the standard test vector
for the string `abc`. -/
theorem sha1_abc :
    sha1 [97, 98, 99] =
      [0xa9, 0x99, 0x3e, 0x36, 0x47, 0x06, 0x81, 0x6a, 0xba, 0x3e,
       0x25, 0x71, 0x78, 0x50, 0xc2, 0x6c, 0x9c, 0xd0, 0xd8, 0x9d] := by
  decide

/-- Bytes of an ASCII string literal. -/
def strBytes (s : String) : List Nat := s.toList.map Char.toNat

set_option maxRecDepth 400000 in
/-- Sanity check of the HMAC-SHA1 embedding on the standard test
vector with key `key` over the quick-brown-fox sentence. -/
theorem hmac_sha1_fox :
    hmac_sha1 (strBytes "key") (strBytes "The quick brown fox jumps over the lazy dog") =
      [0xde, 0x7c, 0x9b, 0x85, 0xb8, 0xb7, 0x8a, 0xa6, 0xbc, 0x8a,
       0x7a, 0x36, 0xf7, 0x0a, 0x90, 0x70, 0x1c, 0x9d, 0xb4, 0xd9] := by
  decide

/-- The shared secret `"pass123"` hard-coded in `server2.cpp` line 15
and `client2.cpp` line 9. -/
def SHARED_SECRET : List Nat := strBytes "pass123"

/-- The success verdict string sent by `handle_client`. -/
def AUTH_OK : List Nat := strBytes "Authentication successful. Welcome!"

/-- The failure verdict string sent by `handle_client`. -/
def AUTH_FAIL : List Nat := strBytes "Authentication failed."

/-!
String equality as executed by `client_digest == expected_digest` in
`handle_client` (`server2.cpp` line 148): `std::string::operator==`
first compares the sizes and then compares the characters from the
front, stopping at the first mismatch.  `memcmpSteps` returns both the
number of byte comparisons performed and the boolean outcome, so that
the running time of the comparison can be reasoned about as the
comparison count.
-/

/-- Short-circuiting byte comparison: number of byte comparisons
performed, and the equality verdict. -/
def memcmpSteps : List Nat → List Nat → Nat × Bool
  | [], [] => (0, true)
  | [], _ :: _ => (0, false)
  | _ :: _, [] => (0, false)
  | a :: as, b :: bs =>
      if a = b then ((memcmpSteps as bs).1 + 1, (memcmpSteps as bs).2)
      else (1, false)

/-- The boolean outcome of `std::string` equality: size check, then
short-circuiting byte comparison. -/
def strEq (a b : List Nat) : Bool :=
  a.length == b.length && (memcmpSteps a b).2

/-- The byte-comparison count of `std::string` equality (zero when the
size check already fails). -/
def strEqCost (a b : List Nat) : Nat :=
  if a.length = b.length then (memcmpSteps a b).1 else 0

/-- Index of the first position at which the two lists differ, if any
position within the common prefix length does. -/
def firstDiff : List Nat → List Nat → Option Nat
  | a :: as, b :: bs => if a = b then (firstDiff as bs).map (· + 1) else some 0
  | _, _ => none

/-- The verification step of `handle_client` (`server2.cpp` lines
144-155), parameterized by the secret: recompute the expected digest
and compare the received digest against it with string equality. -/
def verify (secret challenge client_digest : List Nat) : Bool :=
  strEq client_digest (compute_hmac challenge secret)

/-- The 64-byte stack buffer of `generate_challenge` (`server2.cpp`
line 22) after `RAND_bytes` wrote `len` bytes into it: the supplied
random bytes followed by the remaining zero-initialized cells.
Faithful for `len ≤ 64`; beyond that the C++ write is out of bounds. -/
def rand_buffer (bs : List Nat) (len : Nat) : List Nat :=
  bs.take len ++ List.replicate (64 - len) 0

/-- Embedding of `generate_challenge(length = 16)` (`server2.cpp`
lines 20-30).  `randBytes` is the outcome of the `RAND_bytes` call:
`none` when it fails (the function then throws), `some bs` with the
bytes it wrote on success.  No bound on `len` is checked. -/
def generate_challenge (randBytes : Option (List Nat)) (len : Nat := 16) :
    Except String (List Nat) :=
  match randBytes with
  | none => Except.error "Failed to generate random challenge"
  | some bs => Except.ok ((rand_buffer bs len).take len)

/-- Outcome of one `read(sock, buffer, 1024)` call: `data bs` when the
kernel had the bytes `bs` available on the stream for this call,
`eof` when the peer closed (read returns 0), `err` when the call
failed (negative return). -/
inductive ReadEvent where
  | data (bs : List Nat)
  | eof
  | err

/-- Embedding of `read_message` (`server2.cpp` lines 106-120,
identical in `client2.cpp` and the plaintext variants): a single
`read` into a 1024-byte buffer; the bytes read are returned as a
string when the count is positive, otherwise the empty string.
No length field is parsed, no size is checked, and nothing is ever
thrown. -/
def read_message : ReadEvent → List Nat
  | ReadEvent.data bs => bs.take 1024
  | ReadEvent.eof => []
  | ReadEvent.err => []

/-- Embedding of `send_message` (`server2.cpp` lines 123-127): a
single `send` of exactly the message bytes — no length prefix is
written.  The result is the byte sequence offered to the transport. -/
def send_message (msg : List Nat) : List Nat := msg

/-- Observable actions of the server on the client connection. -/
inductive Event where
  | sent (msg : List Nat)
  | closedConn

/-- Embedding of `handle_client` (`server2.cpp` lines 130-162).
`hello` is the greeting read in step 1 (only printed), `randBytes`
the outcome of the `RAND_bytes` call inside `generate_challenge`,
`client_digest` the bytes `read_message` returned in step 3.  The
result is the list of observable events on the client socket plus
`some message` when an exception escaped (in which case `main`
catches it and never closes the client socket). -/
def handle_client (hello : List Nat) (randBytes : Option (List Nat))
    (client_digest : List Nat) : List Event × Option String :=
  match generate_challenge randBytes with
  | Except.error e => ([], some e)
  | Except.ok challenge =>
      let response := if verify SHARED_SECRET challenge client_digest
                      then AUTH_OK else AUTH_FAIL
      ([Event.sent challenge, Event.sent response, Event.closedConn], none)

/-- Number of times the client connection is closed in a trace. -/
def countClose (t : List Event) : Nat :=
  t.countP (fun e => match e with | Event.closedConn => true | _ => false)

/-- The short-circuiting string equality decides list equality. -/
theorem strEq_iff (a b : List Nat) : strEq a b = true ↔ a = b := by
  induction a generalizing b with
  | nil => cases b <;> simp [strEq, memcmpSteps]
  | cons x xs ih =>
      cases b with
      | nil => simp [strEq, memcmpSteps]
      | cons y ys =>
          by_cases hxy : x = y
          · subst hxy
            have h := ih ys
            simp only [strEq, memcmpSteps, if_pos rfl, List.length_cons,
              Bool.and_eq_true, beq_iff_eq, List.cons.injEq, true_and] at h ⊢
            rw [Nat.add_right_cancel_iff]
            exact h
          · simp [strEq, memcmpSteps, hxy]

/-- Comparing a string with itself succeeds. -/
theorem strEq_self (a : List Nat) : strEq a a = true :=
  (strEq_iff a a).mpr rfl

/-- On equal-length inputs the byte-comparison count of the
short-circuiting equality is one more than the index of the first
differing byte, and the full length when the inputs are equal. -/
theorem memcmpSteps_fst (a b : List Nat) (h : a.length = b.length) :
    (memcmpSteps a b).1 =
      match firstDiff a b with
      | some i => i + 1
      | none => a.length := by
  induction a generalizing b with
  | nil =>
      cases b with
      | nil => simp [memcmpSteps, firstDiff]
      | cons y ys => simp at h
  | cons x xs ih =>
      cases b with
      | nil => simp at h
      | cons y ys =>
          by_cases hxy : x = y
          · have hlen : xs.length = ys.length := by simpa using h
            have hrec := ih ys hlen
            simp only [memcmpSteps, firstDiff, if_pos hxy, hrec]
            cases hfd : firstDiff xs ys with
            | none => simp [hfd]
            | some i => simp [hfd]
          · simp [memcmpSteps, firstDiff, hxy]

/-- C1: for every secret and challenge, the digest the MAC engine
itself computed verifies: `verify` applied to `compute_hmac` of the
same challenge and secret is true, and a session in which the client
returns `compute_hmac(challenge, SHARED_SECRET)` ends with the
success verdict sent and the connection closed. -/
theorem verify_own_mac_succeeds :
    (∀ s c : List Nat, verify s c (compute_hmac c s) = true) ∧
    (∀ (hello bs ch : List Nat),
      generate_challenge (some bs) = Except.ok ch →
      handle_client hello (some bs) (compute_hmac ch SHARED_SECRET) =
        ([Event.sent ch, Event.sent AUTH_OK, Event.closedConn], none)) := by
  constructor
  · intro s c
    exact strEq_self (compute_hmac c s)
  · intro hello bs ch h
    simp only [generate_challenge, Except.ok.injEq] at h
    subst h
    simp only [handle_client, generate_challenge, verify, strEq_self, if_pos]

/-- Witness for C1 at the all-zero 16-byte challenge. -/
theorem verify_own_mac_succeeds_witness :
    handle_client [] (some (List.replicate 16 0))
        (compute_hmac (List.replicate 16 0) SHARED_SECRET) =
      ([Event.sent (List.replicate 16 0), Event.sent AUTH_OK, Event.closedConn], none) :=
  verify_own_mac_succeeds.2 [] (List.replicate 16 0) (List.replicate 16 0) rfl

/-- C2: a digest different from the expected MAC is rejected, and the
mismatch is not an error: the session still sends the failure verdict
string to the peer and closes the connection afterward, with no
exception escaping. -/
theorem reject_sends_verdict :
    (∀ s c t : List Nat, t ≠ compute_hmac c s → verify s c t = false) ∧
    (∀ (hello bs ch t : List Nat),
      generate_challenge (some bs) = Except.ok ch →
      t ≠ compute_hmac ch SHARED_SECRET →
      handle_client hello (some bs) t =
        ([Event.sent ch, Event.sent AUTH_FAIL, Event.closedConn], none)) := by
  constructor
  · intro s c t hne
    simp only [verify, ← Bool.not_eq_true, strEq_iff]
    exact hne
  · intro hello bs ch t h hne
    simp only [generate_challenge, Except.ok.injEq] at h
    subst h
    have hfalse : verify SHARED_SECRET ((rand_buffer bs 16).take 16) t = false := by
      simp only [verify, ← Bool.not_eq_true, strEq_iff]
      exact hne
    simp only [handle_client, generate_challenge, hfalse, if_neg, Bool.false_eq_true,
      not_false_eq_true]

/-- Witness for C2: an empty digest (length 0, hence unequal to the
20-byte expected MAC) is rejected with the failure verdict sent and
the connection closed. -/
theorem reject_sends_verdict_witness :
    handle_client [] (some (List.replicate 16 0)) [] =
      ([Event.sent (List.replicate 16 0), Event.sent AUTH_FAIL, Event.closedConn], none) := by
  refine reject_sends_verdict.2 [] (List.replicate 16 0) (List.replicate 16 0) [] rfl ?_
  intro hcontra
  have h20 := compute_hmac_length (List.replicate 16 0) SHARED_SECRET
  rw [← hcontra] at h20
  simp at h20

/-- C3 counterexample: the framing is not length-prefixed and not
loss-less under fragmentation.  `send_message` of the two-byte message
`"ab"` puts exactly the two payload bytes on the wire (no 4-byte
length field), and when the transport delivers them split into the
chunks `[97]` and `[98]`, the single read of `read_message` returns
only the first chunk, not the message. -/
theorem framing_fragmentation_cex :
    send_message [97, 98] = [97] ++ [98] ∧
    (send_message [97, 98]).length = 2 ∧
    read_message (ReadEvent.data [97]) ≠ [97, 98] := by
  decide

/-- C3 amended: `send_message` writes the raw message bytes with no
length prefix, and `read_message` performs a single read into a
1024-byte buffer; the round-trip returns the message unchanged only
when the transport delivers all sent bytes in that single read and the
message is at most 1024 bytes. -/
theorem framing_single_chunk_roundtrip (B : List Nat) (h : B.length ≤ 1024) :
    send_message B = B ∧ read_message (ReadEvent.data (send_message B)) = B := by
  exact ⟨rfl, List.take_of_length_le h⟩

/-- Witness for the amended C3 at a three-byte message. -/
theorem framing_single_chunk_roundtrip_witness :
    send_message [1, 2, 3] = [1, 2, 3] ∧
    read_message (ReadEvent.data (send_message [1, 2, 3])) = [1, 2, 3] :=
  framing_single_chunk_roundtrip [1, 2, 3] (by decide)

/-- C4 counterexample: the comparison used by verification is not
constant-time.  Against the all-zero 20-byte expected tag, a candidate
differing first at index 0 costs 1 byte comparison while a candidate
differing first at index 19 costs 20, so the comparison count depends
on the position of the first differing byte. -/
theorem comparison_not_constant_time_cex :
    (1 :: List.replicate 19 0 : List Nat).length = 20 ∧
    (List.replicate 19 0 ++ [1] : List Nat).length = 20 ∧
    (List.replicate 20 0 : List Nat).length = 20 ∧
    firstDiff (1 :: List.replicate 19 0) (List.replicate 20 0) = some 0 ∧
    firstDiff (List.replicate 19 0 ++ [1]) (List.replicate 20 0) = some 19 ∧
    strEqCost (1 :: List.replicate 19 0) (List.replicate 20 0) ≠
      strEqCost (List.replicate 19 0 ++ [1]) (List.replicate 20 0) := by
  decide

/-- C4 amended: the tag comparison short-circuits.  For equal-length
inputs its byte-comparison count is the index of the first differing
byte plus one, and the full length when the inputs are equal, so its
running time grows with the position of the first mismatch instead of
being independent of it. -/
theorem comparison_cost_tracks_first_diff (a b : List Nat) (h : a.length = b.length) :
    strEqCost a b =
      match firstDiff a b with
      | some i => i + 1
      | none => a.length := by
  rw [strEqCost, if_pos h]
  exact memcmpSteps_fst a b h

/-- Witness for the amended C4 on a pair of 20-byte tags differing
first at index 19. -/
theorem comparison_cost_tracks_first_diff_witness :
    strEqCost (List.replicate 19 0 ++ [1]) (List.replicate 20 0) =
      match firstDiff (List.replicate 19 0 ++ [1]) (List.replicate 20 0) with
      | some i => i + 1
      | none => (List.replicate 19 0 ++ [1] : List Nat).length :=
  comparison_cost_tracks_first_diff (List.replicate 19 0 ++ [1]) (List.replicate 20 0)
    (by decide)

/-- C5: on success the challenge generator returns exactly the `len`
bytes the secure source supplied, and when `RAND_bytes` fails it
throws instead of producing any challenge (no fallback).  The bound
`len ≤ 64` restricts the statement to the domain on which the 64-byte
stack buffer makes the C++ behavior defined. -/
theorem generate_challenge_exact (len : Nat) (bs : List Nat)
    (hlen : bs.length = len) (hle : len ≤ 64) :
    generate_challenge (some bs) len = Except.ok bs ∧
    (∀ m : Nat, generate_challenge none m =
      Except.error "Failed to generate random challenge") := by
  refine ⟨?_, fun m => rfl⟩
  simp only [generate_challenge, rand_buffer, Except.ok.injEq]
  have h1 : (bs.take len).length = len := by
    rw [List.length_take, hlen, Nat.min_self]
  rw [List.take_left' h1, ← hlen, List.take_length]

/-- Witness for C5 at `len = 16`. -/
theorem generate_challenge_exact_witness :
    generate_challenge (some (List.replicate 16 3)) 16 = Except.ok (List.replicate 16 3) ∧
    (∀ m : Nat, generate_challenge none m =
      Except.error "Failed to generate random challenge") :=
  generate_challenge_exact 16 (List.replicate 16 3) (by decide) (by decide)

/-- C8: the challenge length parameter defaults to 16; the random
bytes land in the 64-byte stack buffer; no validation rejects a
length above 64 (the generator succeeds for every length whenever the
random source does); and for every length at most 64 the returned
string is exactly the `len` bytes taken from that buffer. -/
theorem generate_challenge_unvalidated_bound :
    (∀ rand : Option (List Nat), generate_challenge rand = generate_challenge rand 16) ∧
    (∀ (len : Nat) (bs : List Nat),
      ∃ out, generate_challenge (some bs) len = Except.ok out) ∧
    (∀ (len : Nat) (bs : List Nat), len ≤ 64 → len ≤ bs.length →
      (rand_buffer bs len).length = 64) ∧
    (∀ (len : Nat) (bs : List Nat), len ≤ 64 → bs.length = len →
      generate_challenge (some bs) len = Except.ok ((rand_buffer bs len).take len) ∧
      ((rand_buffer bs len).take len).length = len) := by
  refine ⟨fun rand => rfl, fun len bs => ⟨_, rfl⟩, ?_, ?_⟩
  · intro len bs h64 hble
    simp only [rand_buffer, List.length_append, List.length_take, List.length_replicate]
    omega
  · intro len bs h64 hlen
    refine ⟨rfl, ?_⟩
    simp only [List.length_take, rand_buffer, List.length_append, List.length_replicate,
      List.length_take]
    omega

/-- Witness for C8: no rejection even at length 100 (beyond the
64-byte buffer), and exact 16-byte output at the default length. -/
theorem generate_challenge_unvalidated_bound_witness :
    (∃ out, generate_challenge (some (List.replicate 100 1)) 100 = Except.ok out) ∧
    (rand_buffer (List.replicate 16 1) 16).length = 64 ∧
    ((rand_buffer (List.replicate 16 1) 16).take 16).length = 16 :=
  ⟨generate_challenge_unvalidated_bound.2.1 100 (List.replicate 100 1),
   generate_challenge_unvalidated_bound.2.2.1 16 (List.replicate 16 1) (by decide) (by decide),
   (generate_challenge_unvalidated_bound.2.2.2 16 (List.replicate 16 1) (by decide) (by decide)).2⟩

/-- C6 counterexample: an oversized delivery is not rejected.  When
2000 bytes are available, the single read returns the first 1024 bytes
as an ordinary non-empty message; `read_message` parses no declared
length, checks no maximum, and signals no error. -/
theorem oversized_read_not_rejected_cex :
    read_message (ReadEvent.data (List.replicate 2000 65)) = List.replicate 1024 65 ∧
    read_message (ReadEvent.data (List.replicate 2000 65)) ≠ [] := by
  have ht : read_message (ReadEvent.data (List.replicate 2000 65)) =
      List.replicate 1024 (65 : Nat) := by
    rw [read_message, List.take_replicate]
    norm_num
  refine ⟨ht, ?_⟩
  rw [ht]
  intro hnil
  have hl := congrArg List.length hnil
  rw [List.length_replicate] at hl
  exact absurd hl (by norm_num)

/-- C6 amended: `read_message` has no length field and no configured
maximum; a delivery larger than the 1024-byte read buffer is silently
truncated to the first 1024 bytes and returned as an ordinary message
rather than causing an error transition. -/
theorem oversized_read_truncated (n : Nat) (h : 1024 < n) :
    read_message (ReadEvent.data (List.replicate n 65)) = List.replicate 1024 65 ∧
    (read_message (ReadEvent.data (List.replicate n 65))).length = 1024 := by
  have ht : (List.replicate n 65).take 1024 = List.replicate 1024 (65 : Nat) := by
    rw [List.take_replicate, Nat.min_eq_left (Nat.le_of_lt h)]
  exact ⟨ht, by rw [read_message, ht, List.length_replicate]⟩

/-- Witness for the amended C6 at a 2000-byte delivery. -/
theorem oversized_read_truncated_witness :
    read_message (ReadEvent.data (List.replicate 2000 65)) = List.replicate 1024 65 ∧
    (read_message (ReadEvent.data (List.replicate 2000 65))).length = 1024 :=
  oversized_read_truncated 2000 (by decide)

/-- C7 counterexample: when challenge generation fails, the exception
escapes `handle_client` before any message is sent; the trace contains
no close of the client connection (`main` catches the exception and
closes only the listening socket), so the connection is not released
exactly once on this exit path. -/
theorem close_skipped_on_entropy_failure_cex :
    countClose (handle_client [] none []).1 ≠ 1 ∧
    (handle_client [] none []).2.isSome = true := by
  decide

/-- C7 amended: on the two normal exit paths (authenticated and
rejected) the client connection is closed exactly once, but on the
exception path raised by a challenge-generation failure it is closed
zero times. -/
theorem close_once_normal_never_on_exception :
    (∀ (hello bs d : List Nat), countClose (handle_client hello (some bs) d).1 = 1) ∧
    (∀ (hello d : List Nat), countClose (handle_client hello none d).1 = 0) := by
  constructor
  · intro hello bs d
    simp only [handle_client, generate_challenge, countClose, List.countP_cons,
      List.countP_nil]
    rfl
  · intro hello d
    rfl

/-- C9: a read returning zero bytes (peer closed) and a failed read
(negative count) both make `read_message` return the empty string —
the same value a read that delivered no payload bytes produces — and
never an exception (the embedding is a total function into strings),
so the caller cannot tell the three apart. -/
theorem read_failure_indistinguishable :
    read_message ReadEvent.eof = [] ∧
    read_message ReadEvent.err = [] ∧
    read_message (ReadEvent.data []) = [] ∧
    read_message ReadEvent.eof = read_message (ReadEvent.data []) := by
  decide

/-- C10: `compute_hmac` returns a digest of exactly 20 bytes (the
HMAC-SHA1 length) for every data and key, and it is deterministic:
invocations on equal inputs yield equal digests. -/
theorem compute_hmac_twenty_deterministic :
    ∀ data key : List Nat,
      (compute_hmac data key).length = 20 ∧
      (∀ data2 key2 : List Nat, data2 = data → key2 = key →
        compute_hmac data2 key2 = compute_hmac data key) := by
  intro data key
  exact ⟨compute_hmac_length data key, fun d2 k2 h1 h2 => by rw [h1, h2]⟩

/-- Witness for C10 at concrete data and key. -/
theorem compute_hmac_twenty_deterministic_witness :
    (compute_hmac [1, 2, 3] [4, 5]).length = 20 ∧
    compute_hmac [1, 2, 3] [4, 5] = compute_hmac [1, 2, 3] [4, 5] :=
  ⟨(compute_hmac_twenty_deterministic [1, 2, 3] [4, 5]).1,
   (compute_hmac_twenty_deterministic [1, 2, 3] [4, 5]).2 [1, 2, 3] [4, 5] rfl rfl⟩

end Sock
